import Mathlib

/-
Verification of the Neat.com backup automation tool.

This file gives a shallow embedding, in Lean 4, of the pure logic of the
repository's Python sources:

  * src/utils.py        : organize_file, sanitize_folder_name
  * src/config.py       : Config.validate
  * src/neat_bot.py     : login, export_folder_files, run_backup
  * src/_archive/neat_bot_old.py : _intercept_api_response, export_folder_files

Side-effecting interactions (filesystem, browser, network) are modelled by
explicit state (an association-list filesystem, oracle records describing
what the browser reports at each observation point), and Python exceptions
are modelled with Except/Option.  Machine integers do not overflow in any
of the embedded code paths (Python integers are unbounded), so Nat/Int are
used directly.
-/

namespace NeatBackup

/-! ## Sanitizer (src/utils.py, sanitize_folder_name)

`sanitize_folder_name` splits its input on '/', replaces each of eight
filesystem-unsafe characters with '_' in every part, strips whitespace
from both ends of every part, and rejoins the parts with '/'.
Python's `str.strip()` is modelled on its ASCII whitespace core. -/

/-- The unsafe characters listed in src/utils.py line 88. -/
def unsafeChars : List Char := ['<', '>', ':', '"', '\\', '|', '?', '*']

/-- One character of the sequential `str.replace` chain of src/utils.py
lines 93-94: each unsafe character becomes '_'.  The chain of single-char
replaces is equivalent to this character-wise map because '_' is not
itself in the unsafe list. -/
def replChar (c : Char) : Char := if unsafeChars.contains c then '_' else c

/-- ASCII core of Python's `str.strip()` whitespace set. -/
def isWs (c : Char) : Bool :=
  c = ' ' || c = '\t' || c = '\n' || c = '\r' || c = '\x0b' || c = '\x0c'

/-- Remove trailing whitespace (right half of `str.strip()`). -/
def rstrip : List Char → List Char
  | [] => []
  | c :: t =>
    match rstrip t with
    | [] => if isWs c then [] else [c]
    | r => c :: r

/-- Python `str.strip()`: drop leading and trailing whitespace. -/
def pyStrip (l : List Char) : List Char := rstrip (l.dropWhile isWs)

/-- Python `name.split('/')` on character lists: splits at every slash and
keeps empty parts; the empty string yields one empty part. -/
def splitSlash : List Char → List (List Char)
  | [] => [[]]
  | c :: rest =>
    if c = '/' then [] :: splitSlash rest
    else
      match splitSlash rest with
      | [] => [[c]]
      | h :: t => (c :: h) :: t

/-- Python `'/'.join(parts)` on character lists. -/
def joinSlash : List (List Char) → List Char
  | [] => []
  | [p] => p
  | p :: q :: t => p ++ '/' :: joinSlash (q :: t)

/-- Sanitization of a single path part: replace unsafe characters, then
strip whitespace (src/utils.py lines 91-95). -/
def sanitizePart (p : List Char) : List Char := pyStrip (p.map replChar)

/-- src/utils.py lines 71-98: `sanitize_folder_name`. -/
def sanitize_folder_name (name : String) : String :=
  ⟨joinSlash ((splitSlash name.toList).map sanitizePart)⟩

/-- The '/'-separated segments of a string, as the Python code computes
them with `split('/')`. -/
def segmentsOf (s : String) : List (List Char) := splitSlash s.toList

/-! ### Lemmas about the sanitizer -/

theorem splitSlash_ne_nil (l : List Char) : splitSlash l ≠ [] := by
  induction l with
  | nil => simp [splitSlash]
  | cons c rest ih =>
    by_cases h : c = '/'
    · simp [splitSlash, h]
    · simp only [splitSlash, h, if_false]
      cases hr : splitSlash rest with
      | nil => simp
      | cons a t => simp

theorem mem_splitSlash_no_slash (l : List Char) :
    ∀ p ∈ splitSlash l, '/' ∉ p := by
  induction l with
  | nil =>
    intro p hp
    rw [splitSlash, List.mem_singleton] at hp
    subst hp
    exact List.not_mem_nil '/'
  | cons c rest ih =>
    intro p hp
    by_cases h : c = '/'
    · rw [splitSlash, if_pos h, List.mem_cons] at hp
      rcases hp with hp | hp
      · subst hp
        exact List.not_mem_nil '/'
      · exact ih p hp
    · rw [splitSlash, if_neg h] at hp
      cases hr : splitSlash rest with
      | nil => exact absurd hr (splitSlash_ne_nil rest)
      | cons a t =>
        rw [hr] at hp
        have hp' : p ∈ (c :: a) :: t := hp
        have ha : a ∈ splitSlash rest := by
          rw [hr]
          exact List.mem_cons_self a t
        rw [List.mem_cons] at hp'
        rcases hp' with hp' | hp'
        · subst hp'
          intro hc
          rcases List.mem_cons.mp hc with hc | hc
          · exact h hc.symm
          · exact ih a ha hc
        · refine ih p ?_
          rw [hr]
          exact List.mem_cons_of_mem a hp'

theorem splitSlash_of_no_slash (p : List Char) (h : '/' ∉ p) :
    splitSlash p = [p] := by
  induction p with
  | nil => rfl
  | cons c t ih =>
    have hc : ¬ c = '/' := fun hc => h (hc ▸ List.mem_cons_self c t)
    have ht : '/' ∉ t := fun hm => h (List.mem_cons_of_mem c hm)
    rw [splitSlash, if_neg hc, ih ht]

theorem splitSlash_append_slash (p rest : List Char) (h : '/' ∉ p) :
    splitSlash (p ++ '/' :: rest) = p :: splitSlash rest := by
  induction p with
  | nil => simp [splitSlash]
  | cons c t ih =>
    have hc : ¬ c = '/' := fun hc => h (hc ▸ List.mem_cons_self c t)
    have ht : '/' ∉ t := fun hm => h (List.mem_cons_of_mem c hm)
    rw [List.cons_append, splitSlash, if_neg hc, ih ht]

theorem splitSlash_joinSlash (ps : List (List Char)) (hne : ps ≠ [])
    (hns : ∀ p ∈ ps, '/' ∉ p) : splitSlash (joinSlash ps) = ps := by
  induction ps with
  | nil => exact absurd rfl hne
  | cons p rest ih =>
    cases rest with
    | nil =>
      simp only [joinSlash]
      exact splitSlash_of_no_slash p (hns p (List.mem_cons_self p []))
    | cons q t =>
      have hp : '/' ∉ p := hns p (List.mem_cons_self p _)
      rw [joinSlash, splitSlash_append_slash p _ hp]
      rw [ih (by simp) (fun r hr => hns r (List.mem_cons_of_mem p hr))]

theorem mem_rstrip {c : Char} {l : List Char} (h : c ∈ rstrip l) : c ∈ l := by
  induction l with
  | nil => exact absurd h (List.not_mem_nil c)
  | cons a t ih =>
    rw [rstrip] at h
    cases hr : rstrip t with
    | nil =>
      rw [hr] at h
      by_cases hw : isWs a
      · rw [if_pos hw] at h
        exact absurd h (List.not_mem_nil c)
      · rw [if_neg hw, List.mem_singleton] at h
        subst h
        exact List.mem_cons_self c t
    | cons b r =>
      rw [hr] at h
      have h' : c ∈ a :: b :: r := h
      rcases List.mem_cons.mp h' with h' | h'
      · subst h'
        exact List.mem_cons_self c t
      · refine List.mem_cons_of_mem a (ih ?_)
        rw [hr]
        exact h'

theorem mem_pyStrip {c : Char} {l : List Char} (h : c ∈ pyStrip l) : c ∈ l :=
  (List.dropWhile_sublist isWs (l := l)).subset (mem_rstrip h)

theorem mem_sanitizePart {c : Char} {p : List Char} (h : c ∈ sanitizePart p) :
    c ∈ p.map replChar := mem_pyStrip h

theorem replChar_not_unsafe (c : Char) :
    unsafeChars.contains (replChar c) = false := by
  rw [replChar]
  by_cases h : unsafeChars.contains c = true
  · rw [if_pos h]
    decide
  · rw [if_neg h]
    simpa using h

theorem replChar_idem (c : Char) : replChar (replChar c) = replChar c := by
  have h := replChar_not_unsafe c
  show (if unsafeChars.contains (replChar c) then '_' else replChar c) = replChar c
  rw [h]
  simp

theorem no_slash_sanitizePart (p : List Char) (h : '/' ∉ p) :
    '/' ∉ sanitizePart p := by
  intro hc
  rcases List.mem_map.mp (mem_sanitizePart hc) with ⟨a, ha, hra⟩
  rw [replChar] at hra
  by_cases hu : unsafeChars.contains a
  · rw [if_pos hu] at hra
    exact absurd hra (by decide)
  · rw [if_neg hu] at hra
    exact h (hra ▸ ha)

theorem rstrip_idem (l : List Char) : rstrip (rstrip l) = rstrip l := by
  induction l with
  | nil => rfl
  | cons c t ih =>
    rw [rstrip]
    cases hr : rstrip t with
    | nil =>
      by_cases hw : isWs c
      · simp [hw, rstrip]
      · simp [hw, rstrip]
    | cons b r =>
      have : rstrip (c :: b :: r) = c :: b :: r := by
        rw [rstrip]
        rw [hr] at ih
        rw [ih]
      rw [this]

theorem rstrip_head_fixed (m : List Char) (h : m.dropWhile isWs = m) :
    (rstrip m).dropWhile isWs = rstrip m := by
  cases m with
  | nil => rfl
  | cons c t =>
    have hc : isWs c = false := by
      by_cases hw : isWs c
      · rw [List.dropWhile_cons, if_pos hw] at h
        have hle := (List.dropWhile_sublist isWs (l := t)).length_le
        have hlen := congrArg List.length h
        simp only [List.length_cons] at hlen
        omega
      · exact Bool.of_not_eq_true hw
    rw [rstrip]
    cases hr : rstrip t with
    | nil =>
      rw [hc]
      simp [List.dropWhile_cons, hc]
    | cons b r => simp [List.dropWhile_cons, hc]

theorem dropWhile_isWs_idem (l : List Char) :
    (l.dropWhile isWs).dropWhile isWs = l.dropWhile isWs := by
  induction l with
  | nil => rfl
  | cons a t ih =>
    by_cases hw : isWs a
    · rw [List.dropWhile_cons, if_pos hw, ih]
    · rw [List.dropWhile_cons, if_neg hw, List.dropWhile_cons, if_neg hw]

theorem pyStrip_idem (l : List Char) : pyStrip (pyStrip l) = pyStrip l := by
  have h1 : (pyStrip l).dropWhile isWs = pyStrip l :=
    rstrip_head_fixed (l.dropWhile isWs) (dropWhile_isWs_idem l)
  show rstrip ((pyStrip l).dropWhile isWs) = pyStrip l
  rw [h1]
  exact rstrip_idem (l.dropWhile isWs)

theorem map_replChar_fixed (l : List Char) (h : ∀ c ∈ l, replChar c = c) :
    l.map replChar = l := by
  induction l with
  | nil => rfl
  | cons a t ih =>
    rw [List.map_cons, h a (List.mem_cons_self a t),
      ih fun c hc => h c (List.mem_cons_of_mem a hc)]

theorem sanitizePart_idem (p : List Char) :
    sanitizePart (sanitizePart p) = sanitizePart p := by
  have hfix : (sanitizePart p).map replChar = sanitizePart p := by
    apply map_replChar_fixed
    intro c hc
    rcases List.mem_map.mp (mem_sanitizePart hc) with ⟨a, _, hra⟩
    rw [← hra, replChar_idem]
  show pyStrip ((sanitizePart p).map replChar) = sanitizePart p
  rw [hfix]
  show pyStrip (pyStrip (p.map replChar)) = pyStrip (p.map replChar)
  exact pyStrip_idem (p.map replChar)

theorem sanitizePart_all_safe (p : List Char) :
    ∀ c ∈ sanitizePart p, unsafeChars.contains c = false := by
  intro c hc
  rcases List.mem_map.mp (mem_sanitizePart hc) with ⟨a, _, hra⟩
  rw [← hra, replChar_not_unsafe]

theorem segmentsOf_sanitize (s : String) :
    segmentsOf (sanitize_folder_name s) =
      (splitSlash s.toList).map sanitizePart := by
  show splitSlash (String.toList ⟨joinSlash ((splitSlash s.toList).map sanitizePart)⟩)
      = (splitSlash s.toList).map sanitizePart
  have htl : String.toList ⟨joinSlash ((splitSlash s.toList).map sanitizePart)⟩
      = joinSlash ((splitSlash s.toList).map sanitizePart) := rfl
  rw [htl]
  apply splitSlash_joinSlash
  · intro h
    apply splitSlash_ne_nil s.toList
    cases hsp : splitSlash s.toList with
    | nil => rfl
    | cons a t =>
      rw [hsp] at h
      exact absurd h (by simp)
  · intro p hp
    rcases List.mem_map.mp hp with ⟨q, hq, hpq⟩
    exact hpq ▸ no_slash_sanitizePart q (mem_splitSlash_no_slash s.toList q hq)

/-- Claim C6: `sanitize_folder_name "2013 year TAX/Receipts: Q1"` returns
exactly `"2013 year TAX/Receipts_ Q1"`: the colon is replaced by an
underscore, the hierarchy slash is preserved, and no path segment of the
result has leading or trailing whitespace. -/
theorem sanitize_folder_name_tax_example :
    sanitize_folder_name "2013 year TAX/Receipts: Q1"
      = "2013 year TAX/Receipts_ Q1"
    ∧ (segmentsOf (sanitize_folder_name "2013 year TAX/Receipts: Q1")).all
        (fun p => !(p.head?.elim false isWs) && !(p.getLast?.elim false isWs))
      = true := by
  constructor
  · rfl
  · rfl

/-- Claim C9: `sanitize_folder_name` is idempotent, its output contains
none of the characters `< > : " \ | ? *` in any path segment, and the
number of '/'-separated segments of the output equals that of the
input. -/
theorem sanitize_folder_name_idem_safe (s : String) :
    sanitize_folder_name (sanitize_folder_name s) = sanitize_folder_name s
    ∧ ((segmentsOf (sanitize_folder_name s)).all
        (fun p => p.all fun c => !unsafeChars.contains c)) = true
    ∧ (segmentsOf (sanitize_folder_name s)).length = (segmentsOf s).length := by
  refine ⟨?_, ?_, ?_⟩
  · have h1 : splitSlash (sanitize_folder_name s).toList =
        (splitSlash s.toList).map sanitizePart := segmentsOf_sanitize s
    show (⟨joinSlash ((splitSlash (sanitize_folder_name s).toList).map sanitizePart)⟩ : String)
        = sanitize_folder_name s
    rw [h1, List.map_map]
    have h2 : sanitizePart ∘ sanitizePart = sanitizePart := funext sanitizePart_idem
    rw [h2]
    rfl
  · rw [segmentsOf_sanitize]
    rw [List.all_eq_true]
    intro p hp
    rcases List.mem_map.mp hp with ⟨q, _, hpq⟩
    rw [List.all_eq_true]
    intro c hc
    rw [sanitizePart_all_safe q c (hpq ▸ hc)]
    rfl
  · rw [segmentsOf_sanitize, List.length_map]
    rfl

/-! ## Filesystem model and organize_file (src/utils.py, lines 37-69)

The local filesystem is modelled as an association list from absolute file
path to observed file content (a Nat standing for the byte content, and in
particular determining the byte size).  `Path.exists()` is lookup success,
`Path.rename` removes the source entry and adds the destination entry.
Directories are not modelled: `mkdir(parents=True, exist_ok=True)` only
creates directories and never touches the files tracked here. -/

/-- The modelled on-disk state. -/
abbrev FS : Type := List (String × Nat)

/-- `Path.exists()` / reading a file: first matching entry. -/
def fsLookup : FS → String → Option Nat
  | [], _ => none
  | (k, v) :: t, p => if k = p then some v else fsLookup t p

/-- Remove every entry at a path (the source side of `Path.rename`). -/
def fsRemove : FS → String → FS
  | [], _ => []
  | (k, v) :: t, p => if k = p then fsRemove t p else (k, v) :: fsRemove t p

/-- `source.rename(dest_path)`: the source entry disappears and the content
reappears at the destination path. -/
def fsRename (fs : FS) (src dest : String) (content : Nat) : FS :=
  fsRemove fs src ++ [(dest, content)]

/-- `Path(p).name`: the last '/'-separated component. -/
def basename (p : String) : String :=
  ⟨(splitSlash p.toList).getLast (splitSlash_ne_nil p.toList)⟩

/-- Index of the last '.' in a character list, if any. -/
def lastDotAux : List Char → Nat → Option Nat → Option Nat
  | [], _, acc => acc
  | a :: t, i, acc => lastDotAux t (i + 1) (if a = '.' then some i else acc)

/-- `(Path(name).stem, Path(name).suffix)`: pathlib splits at the last dot
provided it is neither the first nor the last character of the name. -/
def splitExt (name : String) : String × String :=
  match lastDotAux name.toList 0 none with
  | some i =>
    if 0 < i ∧ i < name.toList.length - 1 then
      (⟨name.toList.take i⟩, ⟨name.toList.drop i⟩)
    else (name, "")
  | none => (name, "")

/-- The numbered candidate `dest_folder / (stem + "_" + counter + suffix)`
built by the collision loop of src/utils.py lines 62-66. -/
def mkCand (destFolder stem sfx : String) (k : Nat) : String :=
  destFolder ++ "/" ++ stem ++ "_" ++ toString k ++ sfx

/-- The `while dest_path.exists()` loop of src/utils.py lines 61-66: probe
the current candidate; while it exists, move on to the next numbered
candidate.  The source loop is unbounded; over a finite filesystem it
always terminates because every probe that continues the loop consumes a
distinct existing path, so `fs.length + 1` rounds of fuel are provided and
exhaustion (`none`) is unreachable on the runs the theorems below
consider. -/
def findFree (fs : FS) (destFolder stem sfx : String) :
    Nat → String → Nat → Option String
  | 0, _, _ => none
  | fuel + 1, cand, counter =>
    if (fsLookup fs cand).isSome then
      findFree fs destFolder stem sfx fuel (mkCand destFolder stem sfx counter)
        (counter + 1)
    else some cand

/-- The base (unsuffixed) destination `dest_folder / source.name`. -/
def destBase (src folder root : String) : String :=
  root ++ "/" ++ folder ++ "/" ++ basename src

/-- The k-th numbered destination candidate for a given call. -/
def destCand (src folder root : String) (k : Nat) : String :=
  mkCand (root ++ "/" ++ folder) (splitExt (basename src)).1
    (splitExt (basename src)).2 k

/-- src/utils.py lines 37-69: `organize_file`.  Returns the final path (or
`none` when the source does not exist) together with the filesystem after
the move. -/
def organize_file (fs : FS) (source_path folder_name backup_root : String) :
    Option String × FS :=
  match fsLookup fs source_path with
  | none => (none, fs)
  | some content =>
    match findFree fs (backup_root ++ "/" ++ folder_name)
        (splitExt (basename source_path)).1 (splitExt (basename source_path)).2
        (fs.length + 1) (destBase source_path folder_name backup_root) 1 with
    | none => (none, fs)
    | some dest => (some dest, fsRename fs source_path dest content)

/-! ### Lemmas about organize_file -/

theorem fsLookup_fsRemove_ne (fs : FS) (src p : String) (h : p ≠ src) :
    fsLookup (fsRemove fs src) p = fsLookup fs p := by
  induction fs with
  | nil => rfl
  | cons e t ih =>
    obtain ⟨k, v⟩ := e
    by_cases hk : k = src
    · have hkp : ¬ k = p := fun hkp => h (by rw [← hkp, hk])
      rw [fsRemove, if_pos hk, ih, fsLookup, if_neg hkp]
    · rw [fsRemove, if_neg hk, fsLookup, fsLookup]
      by_cases hkp : k = p
      · rw [if_pos hkp, if_pos hkp]
      · rw [if_neg hkp, if_neg hkp, ih]

theorem fsLookup_append (l1 l2 : FS) (p : String) :
    fsLookup (l1 ++ l2) p =
      match fsLookup l1 p with
      | some v => some v
      | none => fsLookup l2 p := by
  induction l1 with
  | nil => rfl
  | cons e t ih =>
    obtain ⟨k, v⟩ := e
    rw [List.cons_append, fsLookup, fsLookup]
    by_cases hk : k = p
    · rw [if_pos hk, if_pos hk]
    · rw [if_neg hk, if_neg hk, ih]

theorem findFree_sound (fs : FS) (df st sx : String) :
    ∀ fuel counter cand d, findFree fs df st sx fuel cand counter = some d →
      fsLookup fs d = none
      ∧ (d = cand
         ∨ ((fsLookup fs cand).isSome
            ∧ ∃ k, counter ≤ k ∧ d = mkCand df st sx k
              ∧ ∀ j, counter ≤ j → j < k →
                  (fsLookup fs (mkCand df st sx j)).isSome)) := by
  intro fuel
  induction fuel with
  | zero =>
    intro counter cand d h
    exact absurd h (by rw [findFree]; exact Option.noConfusion)
  | succ fuel ih =>
    intro counter cand d h
    by_cases hc : (fsLookup fs cand).isSome
    · rw [findFree, if_pos hc] at h
      obtain ⟨hfresh, hcase⟩ := ih (counter + 1) (mkCand df st sx counter) d h
      refine ⟨hfresh, Or.inr ⟨hc, ?_⟩⟩
      rcases hcase with hd | ⟨hu, k, hk1, hdk, hall⟩
      · exact ⟨counter, Nat.le_refl counter, hd, fun j hj1 hj2 => absurd hj2 (by omega)⟩
      · refine ⟨k, by omega, hdk, fun j hj1 hj2 => ?_⟩
        rcases Nat.eq_or_lt_of_le hj1 with hj | hj
        · exact hj ▸ hu
        · exact hall j (by omega) hj2
    · rw [findFree, if_neg hc] at h
      cases h
      exact ⟨Option.not_isSome_iff_eq_none.mp hc, Or.inl rfl⟩

/-- Counterexample to claim C1 as stated.  The filesystem already holds a
file at the base destination path `backup/Tax/doc.pdf` whose byte size
(100) equals the incoming file's, so the claim requires the operation to
resolve the collision by skipping.  Instead, `organize_file` performs no
size comparison at all: it moves the file to the first unused suffixed
name `backup/Tax/doc_1.pdf`, so a second copy of the same-sized file is
created rather than a skip. -/
theorem organize_file_equal_size_not_skipped :
    fsLookup [("downloads/doc.pdf", 100), ("backup/Tax/doc.pdf", 100)]
        "downloads/doc.pdf"
      = fsLookup [("downloads/doc.pdf", 100), ("backup/Tax/doc.pdf", 100)]
        "backup/Tax/doc.pdf"
    ∧ organize_file [("downloads/doc.pdf", 100), ("backup/Tax/doc.pdf", 100)]
        "downloads/doc.pdf" "Tax" "backup"
      = (some "backup/Tax/doc_1.pdf",
         [("backup/Tax/doc.pdf", 100), ("backup/Tax/doc_1.pdf", 100)]) := by
  constructor
  · rfl
  · rfl

/-- Claim C1 (amended): for every call to `organize_file` with an existing
source file that returns a final path, the file is placed at a destination
path that did not previously exist; the destination is the base name or
else the first unused numerically suffixed filename (every earlier
numbered candidate, and the base name, being taken); no byte-size
comparison or skip occurs; and no pre-existing file other than the moved
source itself is removed or replaced. -/
theorem organize_file_places_fresh (fs : FS) (src folder root dest : String)
    (fs' : FS) (h : organize_file fs src folder root = (some dest, fs')) :
    fsLookup fs dest = none
    ∧ (∀ p v, fsLookup fs p = some v → p ≠ src → fsLookup fs' p = some v)
    ∧ (dest = destBase src folder root
       ∨ ((fsLookup fs (destBase src folder root)).isSome
          ∧ ∃ k, 1 ≤ k ∧ dest = destCand src folder root k
            ∧ ∀ j, 1 ≤ j → j < k →
                (fsLookup fs (destCand src folder root j)).isSome)) := by
  rw [organize_file] at h
  cases hsrc : fsLookup fs src with
  | none =>
    rw [hsrc] at h
    exact absurd (congrArg Prod.fst h) (by simp)
  | some content =>
    rw [hsrc] at h
    cases hf : findFree fs (root ++ "/" ++ folder)
        (splitExt (basename src)).1 (splitExt (basename src)).2
        (fs.length + 1) (destBase src folder root) 1 with
    | none =>
      rw [hf] at h
      exact absurd (congrArg Prod.fst h) (by simp)
    | some d =>
      rw [hf] at h
      have h1 : d = dest := Option.some.inj (congrArg Prod.fst h)
      have h2 : fsRename fs src d content = fs' := congrArg Prod.snd h
      rw [h1] at hf h2
      obtain ⟨hfresh, hcase⟩ :=
        findFree_sound fs (root ++ "/" ++ folder) (splitExt (basename src)).1
          (splitExt (basename src)).2 (fs.length + 1) 1
          (destBase src folder root) dest hf
      refine ⟨hfresh, ?_, ?_⟩
      · intro p v hp hps
        rw [← h2, fsRename, fsLookup_append, fsLookup_fsRemove_ne fs src p hps, hp]
      · rcases hcase with hb | ⟨hu, k, hk1, hdk, hall⟩
        · exact Or.inl hb
        · exact Or.inr ⟨hu, k, hk1, hdk, hall⟩

/-- Witness for the amended claim C1: a concrete successful call.  Moving
`dl/a.pdf` into folder `F` under root `root` on the filesystem that only
holds the source file yields the fresh path `root/F/a.pdf`. -/
theorem organize_file_places_fresh_witness :
    fsLookup [(("dl/a.pdf" : String), 5)] "root/F/a.pdf" = none
    ∧ (∀ p v, fsLookup [(("dl/a.pdf" : String), 5)] p = some v →
        p ≠ "dl/a.pdf" →
        fsLookup [(("root/F/a.pdf" : String), 5)] p = some v)
    ∧ ("root/F/a.pdf" = destBase "dl/a.pdf" "F" "root"
       ∨ ((fsLookup [(("dl/a.pdf" : String), 5)]
            (destBase "dl/a.pdf" "F" "root")).isSome
          ∧ ∃ k, 1 ≤ k ∧ "root/F/a.pdf" = destCand "dl/a.pdf" "F" "root" k
            ∧ ∀ j, 1 ≤ j → j < k →
                (fsLookup [(("dl/a.pdf" : String), 5)]
                  (destCand "dl/a.pdf" "F" "root" j)).isSome)) :=
  organize_file_places_fresh [("dl/a.pdf", 5)] "dl/a.pdf" "F" "root"
    "root/F/a.pdf" [("root/F/a.pdf", 5)] rfl

/-! ## Network interception helper
(src/_archive/neat_bot_old.py, `_intercept_api_response`, lines 198-292)

The helper repeatedly drains the browser performance log and scans it for
completed responses of the `/api/v5/entities` endpoint.  A log entry is
modelled by `NetEvent` (CDP method, request id, url, HTTP status, and the
outcome of retrieving and JSON-parsing the response body).  The repeated
polling rounds, each seeing the full accumulated log again, are modelled
as a list of batches of events. -/

/-- A remote entity as returned by the listing API (fields beyond the two
used for identification are irrelevant to the helper's control flow). -/
structure Entity where
  webid : String
  name : String
deriving DecidableEq

/-- Outcome of `Network.getResponseBody` plus JSON parsing for one request:
the retrieval call raised, the body was empty/falsy, the JSON had no
`entities` key, or it had an `entities` array. -/
inductive BodyResult where
  | fetchErr : BodyResult
  | noBody : BodyResult
  | noEntitiesKey : BodyResult
  | withEntities : List Entity → BodyResult
deriving DecidableEq

/-- One performance-log entry, pre-parsed. -/
structure NetEvent where
  method : String
  requestId : String
  url : String
  status : Nat
  body : BodyResult
deriving DecidableEq

/-- Is `pat` a prefix of `l`? -/
def isPrefixChars : List Char → List Char → Bool
  | [], _ => true
  | _ :: _, [] => false
  | a :: ps, b :: ls => a == b && isPrefixChars ps ls

/-- Does `pat` occur as a contiguous run inside `hay`? -/
def hasSubAux : List Char → List Char → Bool
  | [], pat => pat.isEmpty
  | a :: t, pat => isPrefixChars pat (a :: t) || hasSubAux t pat

/-- Python's substring test `pat in hay` on strings. -/
def containsSub (hay pat : String) : Bool := hasSubAux hay.toList pat.toList

/-- The filter of src/_archive/neat_bot_old.py lines 234-240: a completed
response (status 200) of the entities listing endpoint. -/
def eventMatches (e : NetEvent) : Bool :=
  e.method == "Network.responseReceived"
    && containsSub e.url "/api/v5/entities"
    && e.status == 200

/-- The helper's loop state: the seen-set of request ids
(`checked_request_ids`), a ghost log of the request ids whose body was
actually fetched (one entry per `Network.getResponseBody` call), and
`all_responses`. -/
structure InterceptState where
  checked : List String
  fetched : List String
  responses : List (List Entity)
deriving DecidableEq

/-- State at the start of an interception window. -/
def initialInterceptState : InterceptState := ⟨[], [], []⟩

/-- Processing of a single log entry (lines 228-276): non-matching entries
and already-seen request ids are skipped; otherwise the id joins the
seen-set, the body is fetched, and an `entities` array is appended to
`all_responses` only when it has more than zero elements. -/
def processEvent (st : InterceptState) (e : NetEvent) : InterceptState :=
  if eventMatches e then
    if e.requestId ∈ st.checked then st
    else
      { checked := e.requestId :: st.checked
        fetched := st.fetched ++ [e.requestId]
        responses :=
          match e.body with
          | .withEntities es =>
            if 0 < es.length then st.responses ++ [es] else st.responses
          | _ => st.responses }
  else st

/-- The full wait window: every polling round re-reads the whole log. -/
def interceptState (batches : List (List NetEvent)) : InterceptState :=
  batches.foldl (fun st b => b.foldl processEvent st) initialInterceptState

/-- Python's `max(all_responses, key=len)`: the first list of maximal
length. -/
def largestResponse : List (List Entity) → List Entity
  | [] => []
  | h :: t => t.foldl (fun best r => if best.length < r.length then r else best) h

/-- Lines 284-292: return the response with the most entities, or an empty
list when no response was collected. -/
def intercept_api_response (batches : List (List NetEvent)) : List Entity :=
  if (interceptState batches).responses.isEmpty then []
  else largestResponse (interceptState batches).responses

/-! ### Lemmas about the interception helper -/

theorem processEvent_fetched_invariant (st : InterceptState) (e : NetEvent)
    (h1 : st.fetched.Nodup) (h2 : ∀ i ∈ st.fetched, i ∈ st.checked) :
    (processEvent st e).fetched.Nodup
    ∧ ∀ i ∈ (processEvent st e).fetched, i ∈ (processEvent st e).checked := by
  rw [processEvent]
  by_cases hm : eventMatches e
  · rw [if_pos hm]
    by_cases hc : e.requestId ∈ st.checked
    · rw [if_pos hc]
      exact ⟨h1, h2⟩
    · rw [if_neg hc]
      refine ⟨?_, ?_⟩
      · have hnot : e.requestId ∉ st.fetched := fun hmem => hc (h2 _ hmem)
        rw [List.nodup_append]
        refine ⟨h1, List.nodup_singleton _, ?_⟩
        intro a ha hax
        rw [List.mem_singleton] at hax
        exact hnot (hax ▸ ha)
      · intro i hi
        simp only [List.mem_append, List.mem_singleton] at hi
        rcases hi with hi | hi
        · exact List.mem_cons_of_mem _ (h2 i hi)
        · exact hi ▸ List.mem_cons_self _ _
  · rw [if_neg hm]
    exact ⟨h1, h2⟩

theorem foldl_processEvent_fetched_invariant (events : List NetEvent) :
    ∀ st : InterceptState, st.fetched.Nodup →
      (∀ i ∈ st.fetched, i ∈ st.checked) →
      (events.foldl processEvent st).fetched.Nodup
      ∧ ∀ i ∈ (events.foldl processEvent st).fetched,
          i ∈ (events.foldl processEvent st).checked := by
  induction events with
  | nil => exact fun st h1 h2 => ⟨h1, h2⟩
  | cons e t ih =>
    intro st h1 h2
    obtain ⟨h1', h2'⟩ := processEvent_fetched_invariant st e h1 h2
    exact ih (processEvent st e) h1' h2'

theorem interceptState_fetched_nodup (batches : List (List NetEvent)) :
    (interceptState batches).fetched.Nodup := by
  rw [interceptState]
  have h : ∀ st : InterceptState, st.fetched.Nodup →
      (∀ i ∈ st.fetched, i ∈ st.checked) →
      (batches.foldl (fun st b => b.foldl processEvent st) st).fetched.Nodup
      ∧ ∀ i ∈ (batches.foldl (fun st b => b.foldl processEvent st) st).fetched,
          i ∈ (batches.foldl (fun st b => b.foldl processEvent st) st).checked := by
    induction batches with
    | nil => exact fun st h1 h2 => ⟨h1, h2⟩
    | cons b bs ih =>
      intro st h1 h2
      obtain ⟨h1', h2'⟩ := foldl_processEvent_fetched_invariant b st h1 h2
      exact ih (b.foldl processEvent st) h1' h2'
  exact (h initialInterceptState (List.nodup_nil) (by intro i hi; cases hi)).1

theorem largestResponse_foldl (t : List (List Entity)) :
    ∀ h : List Entity,
      (t.foldl (fun best r => if best.length < r.length then r else best) h
          ∈ h :: t)
      ∧ h.length ≤
          (t.foldl (fun best r => if best.length < r.length then r else best) h).length
      ∧ ∀ r ∈ t, r.length ≤
          (t.foldl (fun best r => if best.length < r.length then r else best) h).length := by
  induction t with
  | nil =>
    intro h
    refine ⟨List.mem_cons_self h [], Nat.le_refl _, ?_⟩
    intro r hr
    cases hr
  | cons r rs ih =>
    intro h
    rw [List.foldl_cons]
    obtain ⟨ihmem, ihlen, ihall⟩ := ih (if h.length < r.length then r else h)
    have hh : h.length ≤ (if h.length < r.length then r else h).length := by
      by_cases hlt : h.length < r.length
      · rw [if_pos hlt]; omega
      · rw [if_neg hlt]
    have hr : r.length ≤ (if h.length < r.length then r else h).length := by
      by_cases hlt : h.length < r.length
      · rw [if_pos hlt]
      · rw [if_neg hlt]; omega
    refine ⟨?_, Nat.le_trans hh ihlen, ?_⟩
    · rcases List.mem_cons.mp ihmem with hm | hm
      · rw [hm]
        by_cases hlt : h.length < r.length
        · rw [if_pos hlt]
          exact List.mem_cons_of_mem h (List.mem_cons_self r rs)
        · rw [if_neg hlt]
          exact List.mem_cons_self h _
      · exact List.mem_cons_of_mem h (List.mem_cons_of_mem r hm)
    · intro x hx
      rcases List.mem_cons.mp hx with hx | hx
      · subst hx
        exact Nat.le_trans hr ihlen
      · exact ihall x hx

theorem largestResponse_mem (l : List (List Entity)) (h : l ≠ []) :
    largestResponse l ∈ l := by
  cases l with
  | nil => exact absurd rfl h
  | cons a t => exact (largestResponse_foldl t a).1

theorem largestResponse_maximal (l : List (List Entity)) (h : l ≠ []) :
    ∀ r ∈ l, r.length ≤ (largestResponse l).length := by
  cases l with
  | nil => exact absurd rfl h
  | cons a t =>
    intro r hr
    obtain ⟨_, hlen, hall⟩ := largestResponse_foldl t a
    rcases List.mem_cons.mp hr with hr | hr
    · exact hr ▸ hlen
    · exact hall r hr

/-- Claim C4: during one interception window, every network request id has
its body fetched at most once (the seen-set `checked_request_ids`
deduplicates across polling rounds), and when at least one
entities-carrying response was collected the helper returns exactly one of
the collected responses — one of greatest entity count — rather than the
union of entities across responses. -/
theorem intercept_api_response_dedup_largest (batches : List (List NetEvent)) :
    (interceptState batches).fetched.Nodup
    ∧ ((interceptState batches).responses ≠ [] →
        intercept_api_response batches ∈ (interceptState batches).responses
        ∧ ∀ r ∈ (interceptState batches).responses,
            r.length ≤ (intercept_api_response batches).length) := by
  refine ⟨interceptState_fetched_nodup batches, ?_⟩
  intro hne
  have hie : (interceptState batches).responses.isEmpty = false := by
    cases hr : (interceptState batches).responses with
    | nil => exact absurd hr hne
    | cons a t => rfl
  rw [intercept_api_response, hie]
  simp only [Bool.false_eq_true, if_false]
  exact ⟨largestResponse_mem _ hne, largestResponse_maximal _ hne⟩

/-- Witness for claim C4: a window observing the same request id twice
(across two polling rounds) plus a smaller sidebar response fetches each
id once and returns the larger response. -/
theorem intercept_api_response_dedup_largest_witness :
    (interceptState
        [[⟨"Network.responseReceived", "req-1",
            "https://app.neat.com/api/v5/entities?page=1", 200,
            .withEntities [⟨"w1", "a"⟩, ⟨"w2", "b"⟩]⟩,
          ⟨"Network.responseReceived", "req-2",
            "https://app.neat.com/api/v5/entities?side=1", 200,
            .withEntities [⟨"w3", "c"⟩]⟩],
         [⟨"Network.responseReceived", "req-1",
            "https://app.neat.com/api/v5/entities?page=1", 200,
            .withEntities [⟨"w1", "a"⟩, ⟨"w2", "b"⟩]⟩]]).fetched.Nodup
    ∧ (intercept_api_response
        [[⟨"Network.responseReceived", "req-1",
            "https://app.neat.com/api/v5/entities?page=1", 200,
            .withEntities [⟨"w1", "a"⟩, ⟨"w2", "b"⟩]⟩,
          ⟨"Network.responseReceived", "req-2",
            "https://app.neat.com/api/v5/entities?side=1", 200,
            .withEntities [⟨"w3", "c"⟩]⟩],
         [⟨"Network.responseReceived", "req-1",
            "https://app.neat.com/api/v5/entities?page=1", 200,
            .withEntities [⟨"w1", "a"⟩, ⟨"w2", "b"⟩]⟩]]
        ∈ (interceptState
        [[⟨"Network.responseReceived", "req-1",
            "https://app.neat.com/api/v5/entities?page=1", 200,
            .withEntities [⟨"w1", "a"⟩, ⟨"w2", "b"⟩]⟩,
          ⟨"Network.responseReceived", "req-2",
            "https://app.neat.com/api/v5/entities?side=1", 200,
            .withEntities [⟨"w3", "c"⟩]⟩],
         [⟨"Network.responseReceived", "req-1",
            "https://app.neat.com/api/v5/entities?page=1", 200,
            .withEntities [⟨"w1", "a"⟩, ⟨"w2", "b"⟩]⟩]]).responses
        ∧ ∀ r ∈ (interceptState
        [[⟨"Network.responseReceived", "req-1",
            "https://app.neat.com/api/v5/entities?page=1", 200,
            .withEntities [⟨"w1", "a"⟩, ⟨"w2", "b"⟩]⟩,
          ⟨"Network.responseReceived", "req-2",
            "https://app.neat.com/api/v5/entities?side=1", 200,
            .withEntities [⟨"w3", "c"⟩]⟩],
         [⟨"Network.responseReceived", "req-1",
            "https://app.neat.com/api/v5/entities?page=1", 200,
            .withEntities [⟨"w1", "a"⟩, ⟨"w2", "b"⟩]⟩]]).responses,
            r.length ≤ (intercept_api_response
        [[⟨"Network.responseReceived", "req-1",
            "https://app.neat.com/api/v5/entities?page=1", 200,
            .withEntities [⟨"w1", "a"⟩, ⟨"w2", "b"⟩]⟩,
          ⟨"Network.responseReceived", "req-2",
            "https://app.neat.com/api/v5/entities?side=1", 200,
            .withEntities [⟨"w3", "c"⟩]⟩],
         [⟨"Network.responseReceived", "req-1",
            "https://app.neat.com/api/v5/entities?page=1", 200,
            .withEntities [⟨"w1", "a"⟩, ⟨"w2", "b"⟩]⟩]]).length) := by
  have h := intercept_api_response_dedup_largest
    [[⟨"Network.responseReceived", "req-1",
        "https://app.neat.com/api/v5/entities?page=1", 200,
        .withEntities [⟨"w1", "a"⟩, ⟨"w2", "b"⟩]⟩,
      ⟨"Network.responseReceived", "req-2",
        "https://app.neat.com/api/v5/entities?side=1", 200,
        .withEntities [⟨"w3", "c"⟩]⟩],
     [⟨"Network.responseReceived", "req-1",
        "https://app.neat.com/api/v5/entities?page=1", 200,
        .withEntities [⟨"w1", "a"⟩, ⟨"w2", "b"⟩]⟩]]
  exact ⟨h.1, h.2 (by decide)⟩

/-- Counterexample to claim C5 as stated.  A matching response of the
listing endpoint whose JSON body carries an `entities` array with zero
elements is not recorded: the request id enters the seen-set, but
`all_responses` stays empty, because lines 265-269 of
src/_archive/neat_bot_old.py append only when `len(entities) > 0` and
explicitly log "0 entities, skipping" otherwise. -/
theorem intercept_zero_entities_discarded :
    eventMatches ⟨"Network.responseReceived", "req-0",
        "https://app.neat.com/api/v5/entities?page=1", 200,
        .withEntities []⟩ = true
    ∧ (interceptState [[⟨"Network.responseReceived", "req-0",
        "https://app.neat.com/api/v5/entities?page=1", 200,
        .withEntities []⟩]]).checked = ["req-0"]
    ∧ (interceptState [[⟨"Network.responseReceived", "req-0",
        "https://app.neat.com/api/v5/entities?page=1", 200,
        .withEntities []⟩]]).responses = [] := by
  refine ⟨?_, ?_, ?_⟩ <;> rfl

/-- Claim C5 (amended): the helper records an intercepted listing-API
response only when its `entities` array has at least one element — every
recorded observation is nonempty, a zero-element response is discarded —
and when a newly-seen matching response carries a nonempty `entities`
array, the whole array is appended to the running collection. -/
theorem intercept_nonempty_recorded (batches : List (List NetEvent))
    (st : InterceptState) (e : NetEvent) (es : List Entity) :
    (∀ r ∈ (interceptState batches).responses, r ≠ [])
    ∧ (eventMatches e = true → e.requestId ∉ st.checked →
        e.body = .withEntities es → es ≠ [] →
        (processEvent st e).responses = st.responses ++ [es]) := by
  constructor
  · have hstep : ∀ (s : InterceptState) (ev : NetEvent),
        (∀ r ∈ s.responses, r ≠ []) →
        ∀ r ∈ (processEvent s ev).responses, r ≠ [] := by
      intro s ev hs r hr
      rw [processEvent] at hr
      by_cases hm : eventMatches ev
      · rw [if_pos hm] at hr
        by_cases hc : ev.requestId ∈ s.checked
        · rw [if_pos hc] at hr
          exact hs r hr
        · rw [if_neg hc] at hr
          cases hb : ev.body with
          | withEntities es' =>
            rw [hb] at hr
            simp only at hr
            by_cases hlen : 0 < es'.length
            · rw [if_pos hlen] at hr
              rcases List.mem_append.mp hr with hr | hr
              · exact hs r hr
              · rw [List.mem_singleton] at hr
                subst hr
                intro hnil
                rw [hnil] at hlen
                exact absurd hlen (by simp)
            · rw [if_neg hlen] at hr
              exact hs r hr
          | fetchErr =>
            rw [hb] at hr
            exact hs r hr
          | noBody =>
            rw [hb] at hr
            exact hs r hr
          | noEntitiesKey =>
            rw [hb] at hr
            exact hs r hr
      · rw [if_neg hm] at hr
        exact hs r hr
    have hbatch : ∀ (evs : List NetEvent) (s : InterceptState),
        (∀ r ∈ s.responses, r ≠ []) →
        ∀ r ∈ (evs.foldl processEvent s).responses, r ≠ [] := by
      intro evs
      induction evs with
      | nil => exact fun s hs => hs
      | cons ev t ih => exact fun s hs => ih (processEvent s ev) (hstep s ev hs)
    have hall : ∀ (bs : List (List NetEvent)) (s : InterceptState),
        (∀ r ∈ s.responses, r ≠ []) →
        ∀ r ∈ (bs.foldl (fun s b => b.foldl processEvent s) s).responses, r ≠ [] := by
      intro bs
      induction bs with
      | nil => exact fun s hs => hs
      | cons b t ih => exact fun s hs => ih (b.foldl processEvent s) (hbatch b s hs)
    exact hall batches initialInterceptState (by intro r hr; cases hr)
  · intro hm hc hb hes
    rw [processEvent, if_pos hm, if_neg hc, hb]
    simp only
    rw [if_pos (List.length_pos.mpr hes)]

/-- Witness for the amended claim C5: a newly-seen matching response with
one entity is appended in full, and a concrete window's recorded
observations are all nonempty. -/
theorem intercept_nonempty_recorded_witness :
    (∀ r ∈ (interceptState [[⟨"Network.responseReceived", "req-1",
        "https://app.neat.com/api/v5/entities?page=1", 200,
        .withEntities [⟨"w1", "a"⟩]⟩]]).responses, r ≠ [])
    ∧ (processEvent initialInterceptState
        ⟨"Network.responseReceived", "req-1",
          "https://app.neat.com/api/v5/entities?page=1", 200,
          .withEntities [⟨"w1", "a"⟩]⟩).responses
      = initialInterceptState.responses ++ [[⟨"w1", "a"⟩]] := by
  have h := intercept_nonempty_recorded
    [[⟨"Network.responseReceived", "req-1",
        "https://app.neat.com/api/v5/entities?page=1", 200,
        .withEntities [⟨"w1", "a"⟩]⟩]]
    initialInterceptState
    ⟨"Network.responseReceived", "req-1",
      "https://app.neat.com/api/v5/entities?page=1", 200,
      .withEntities [⟨"w1", "a"⟩]⟩
    [⟨"w1", "a"⟩]
  exact ⟨h.1, h.2 (by decide) (by decide) rfl (by decide)⟩

/-! ## Folder export engine (src/neat_bot.py, `export_folder_files`,
lines 320-894)

The per-item loop (lines 547-697, and its per-page copy at lines 747-887)
processes one checkbox per iteration inside a `try`/`except` whose handler
increments `failed_count`, appends one error string, appends one record to
`self.failed_files`, and continues.  One iteration is modelled by its
observable outcome.  Note two source subtleties kept by the model:
an iteration can also end with no exception and no organized file (lines
667-675 only log in that case, changing neither counter), and the
`'file_title' in locals()` check at line 685 can pick up the previous
iteration's title when the current iteration raised before the title was
assigned. -/

/-- Outcome of one per-item iteration. -/
inductive ItemOutcome where
  | ok : String → ItemOutcome
  | silent : String → ItemOutcome
  | errAfterTitle : String → String → ItemOutcome
  | errBeforeTitle : String → ItemOutcome
deriving DecidableEq

/-- One entry of `self.failed_files` (src/neat_bot.py lines 690-696). -/
structure FailedFileRecord where
  folder_name : String
  folder_selector : String
  file_index : Nat
  file_title : String
  error : String
deriving DecidableEq

/-- The accumulator variables of the per-item loop. -/
structure ExportState where
  exported_count : Nat
  failed_count : Nat
  errors : List String
  failed_files : List FailedFileRecord
deriving DecidableEq

/-- `file_title if 'file_title' in locals() else f'File {idx}'`
(src/neat_bot.py line 685): the most recently assigned title survives in
`locals()` across iterations. -/
def titleContext (lastTitle : Option String) (idx : Nat) : String :=
  match lastTitle with
  | some t => t
  | none => "File " ++ toString idx

/-- One iteration of the per-item loop: the updated accumulators and the
value of `file_title` left in `locals()` afterwards. -/
def processOneItem (fn fs : String) (idx : Nat) (lastTitle : Option String)
    (st : ExportState) (it : ItemOutcome) : ExportState × Option String :=
  match it with
  | .ok title =>
    ({ st with exported_count := st.exported_count + 1 }, some title)
  | .silent title => (st, some title)
  | .errAfterTitle title err =>
    ({ st with
        failed_count := st.failed_count + 1
        errors := st.errors ++ [title ++ ": " ++ err]
        failed_files := st.failed_files ++ [⟨fn, fs, idx, title, err⟩] },
     some title)
  | .errBeforeTitle err =>
    ({ st with
        failed_count := st.failed_count + 1
        errors := st.errors ++ [titleContext lastTitle idx ++ ": " ++ err]
        failed_files :=
          st.failed_files ++ [⟨fn, fs, idx, titleContext lastTitle idx, err⟩] },
     lastTitle)

/-- The whole per-item loop (`for idx, checkbox in enumerate(checkboxes, 1)`). -/
def exportLoop (fn fs : String) :
    List ItemOutcome → Nat → Option String → ExportState → ExportState
  | [], _, _, st => st
  | it :: rest, idx, lastTitle, st =>
    exportLoop fn fs rest (idx + 1) (processOneItem fn fs idx lastTitle st it).2
      (processOneItem fn fs idx lastTitle st it).1

/-- Number of items whose iteration raised an exception. -/
def countErr : List ItemOutcome → Nat
  | [] => 0
  | .errAfterTitle _ _ :: t => countErr t + 1
  | .errBeforeTitle _ :: t => countErr t + 1
  | .ok _ :: t => countErr t
  | .silent _ :: t => countErr t

/-- Number of items whose iteration exported a file. -/
def countOk : List ItemOutcome → Nat
  | [] => 0
  | .ok _ :: t => countOk t + 1
  | .silent _ :: t => countOk t
  | .errAfterTitle _ _ :: t => countOk t
  | .errBeforeTitle _ :: t => countOk t

/-- The folder-level body of `export_folder_files` (src/neat_bot.py lines
338-894): `openOutcome` is whether opening the folder and the pre-loop
setup raised; `abortAfter = some k` models a folder-level exception (one
escaping the per-item handler, e.g. from the pagination machinery) that
strikes after `k` items were processed; the surrounding `try`/`except`
(lines 891-894) then returns the accumulators as they stand, having only
logged the folder-level error. -/
def export_folder_files (openOutcome : Except String Unit)
    (items : List ItemOutcome) (abortAfter : Option Nat) (fn fs : String) :
    Nat × Nat × List String :=
  match openOutcome with
  | .error _ => (0, 0, [])
  | .ok _ =>
    match abortAfter with
    | none =>
      ((exportLoop fn fs items 1 none ⟨0, 0, [], []⟩).exported_count,
       (exportLoop fn fs items 1 none ⟨0, 0, [], []⟩).failed_count,
       (exportLoop fn fs items 1 none ⟨0, 0, [], []⟩).errors)
    | some k =>
      ((exportLoop fn fs (items.take k) 1 none ⟨0, 0, [], []⟩).exported_count,
       (exportLoop fn fs (items.take k) 1 none ⟨0, 0, [], []⟩).failed_count,
       (exportLoop fn fs (items.take k) 1 none ⟨0, 0, [], []⟩).errors)

theorem exportLoop_counts (fn fs : String) (items : List ItemOutcome) :
    ∀ (idx : Nat) (lt : Option String) (st : ExportState),
      (exportLoop fn fs items idx lt st).failed_count
        = st.failed_count + countErr items
      ∧ (exportLoop fn fs items idx lt st).errors.length
        = st.errors.length + countErr items
      ∧ (exportLoop fn fs items idx lt st).failed_files.length
        = st.failed_files.length + countErr items
      ∧ (exportLoop fn fs items idx lt st).exported_count
        = st.exported_count + countOk items := by
  induction items with
  | nil =>
    intro idx lt st
    exact ⟨rfl, rfl, rfl, rfl⟩
  | cons it rest ih =>
    intro idx lt st
    cases it with
    | ok title =>
      obtain ⟨h1, h2, h3, h4⟩ :=
        ih (idx + 1) (processOneItem fn fs idx lt st (.ok title)).2
          (processOneItem fn fs idx lt st (.ok title)).1
      refine ⟨?_, ?_, ?_, ?_⟩ <;>
        · rw [exportLoop]
          first
            | rw [h1]
            | rw [h2]
            | rw [h3]
            | rw [h4]
          simp [processOneItem, countErr, countOk]
          try omega
    | silent title =>
      obtain ⟨h1, h2, h3, h4⟩ :=
        ih (idx + 1) (processOneItem fn fs idx lt st (.silent title)).2
          (processOneItem fn fs idx lt st (.silent title)).1
      refine ⟨?_, ?_, ?_, ?_⟩ <;>
        · rw [exportLoop]
          first
            | rw [h1]
            | rw [h2]
            | rw [h3]
            | rw [h4]
          simp [processOneItem, countErr, countOk]
    | errAfterTitle title err =>
      obtain ⟨h1, h2, h3, h4⟩ :=
        ih (idx + 1) (processOneItem fn fs idx lt st (.errAfterTitle title err)).2
          (processOneItem fn fs idx lt st (.errAfterTitle title err)).1
      refine ⟨?_, ?_, ?_, ?_⟩ <;>
        · rw [exportLoop]
          first
            | rw [h1]
            | rw [h2]
            | rw [h3]
            | rw [h4]
          simp [processOneItem, countErr, countOk]
          try omega
    | errBeforeTitle err =>
      obtain ⟨h1, h2, h3, h4⟩ :=
        ih (idx + 1) (processOneItem fn fs idx lt st (.errBeforeTitle err)).2
          (processOneItem fn fs idx lt st (.errBeforeTitle err)).1
      refine ⟨?_, ?_, ?_, ?_⟩ <;>
        · rw [exportLoop]
          first
            | rw [h1]
            | rw [h2]
            | rw [h3]
            | rw [h4]
          simp [processOneItem, countErr, countOk]
          try omega

/-- Claim C2: in the per-item loop of `export_folder_files`, every item
whose processing raises an exception contributes exactly one to
`failed_count`, exactly one error string to the returned error list (built
from the file title in scope or a `File {idx}` placeholder), and exactly
one structured record to the retry-candidate list `failed_files`; no
per-item exception aborts the folder: every successful item of the whole
list, including those after failures, is still counted in
`exported_count`. -/
theorem export_loop_error_handling (fn fs : String) (items : List ItemOutcome) :
    (exportLoop fn fs items 1 none ⟨0, 0, [], []⟩).failed_count = countErr items
    ∧ (exportLoop fn fs items 1 none ⟨0, 0, [], []⟩).errors.length = countErr items
    ∧ (exportLoop fn fs items 1 none ⟨0, 0, [], []⟩).failed_files.length
        = countErr items
    ∧ (exportLoop fn fs items 1 none ⟨0, 0, [], []⟩).exported_count
        = countOk items := by
  obtain ⟨h1, h2, h3, h4⟩ := exportLoop_counts fn fs items 1 none ⟨0, 0, [], []⟩
  exact ⟨by simpa using h1, by simpa using h2, by simpa using h3, by simpa using h4⟩

/-- Counterexample to claim C3 as stated.  When the folder fails to open,
the `except` handler at src/neat_bot.py lines 891-894 only logs the
folder-level error message and returns the accumulators untouched: the
result is `(0, 0, [])`, whose error list is empty — not an all-failed
result containing a single descriptive error string. -/
theorem export_folder_files_open_error_result :
    export_folder_files (.error "Message: no such element") [.ok "A", .ok "B"]
        none "2019 year TAX" "selector"
      = (0, 0, [])
    ∧ (export_folder_files (.error "Message: no such element") [.ok "A", .ok "B"]
        none "2019 year TAX" "selector").2.2.length = 0 := by
  exact ⟨rfl, rfl⟩

/-- Claim C3 (amended): a folder-level exception in `export_folder_files`
never reaches the caller: the function returns the partially accumulated
result — the per-item success and failure counts and the per-item error
strings gathered before the exception — with no folder-level error string
appended to the returned list (the folder-level error is only logged).  In
particular a failure to open the folder yields `(0, 0, [])`, so the
caller's loop proceeds to sibling folders. -/
theorem export_folder_files_partial_on_exception (e fn fs : String)
    (items : List ItemOutcome) (ab : Option Nat) (k : Nat) :
    export_folder_files (.error e) items ab fn fs = (0, 0, [])
    ∧ (export_folder_files (.ok ()) items (some k) fn fs).1
        = countOk (items.take k)
    ∧ (export_folder_files (.ok ()) items (some k) fn fs).2.1
        = countErr (items.take k)
    ∧ (export_folder_files (.ok ()) items (some k) fn fs).2.2.length
        = countErr (items.take k) := by
  obtain ⟨h1, h2, _, h4⟩ :=
    exportLoop_counts fn fs (items.take k) 1 none ⟨0, 0, [], []⟩
  refine ⟨rfl, ?_, ?_, ?_⟩
  · show (exportLoop fn fs (items.take k) 1 none ⟨0, 0, [], []⟩).exported_count
      = countOk (items.take k)
    simpa using h4
  · show (exportLoop fn fs (items.take k) 1 none ⟨0, 0, [], []⟩).failed_count
      = countErr (items.take k)
    simpa using h1
  · show (exportLoop fn fs (items.take k) 1 none ⟨0, 0, [], []⟩).errors.length
      = countErr (items.take k)
    simpa using h2

/-! ## Top-level run (src/neat_bot.py, `run_backup`, lines 896-959) -/

/-- The statistics dictionary built by `run_backup`. -/
structure BackupStats where
  total_folders : Nat
  total_files : Nat
  successful_files : Nat
  failed_files : Nat
  errors : List String
  success : Bool
deriving DecidableEq

/-- The per-folder loop of `run_backup` (lines 929-936): each enumerated
folder yields either an `export_folder_files` result triple or an
exception escaping into the surrounding `try` (which ends the loop; the
handler at lines 952-953 logs and falls through to `return stats`).  On
normal completion `stats['success']` is set to true. -/
def runLoop : List (Except String (Nat × Nat × List String)) → BackupStats → BackupStats
  | [], st => { st with success := true }
  | .error _ :: _, st => st
  | .ok (s, f, es) :: rest, st =>
    runLoop rest
      { st with
          successful_files := st.successful_files + s
          failed_files := st.failed_files + f
          total_files := st.total_files + (s + f)
          errors := st.errors ++ es }

/-- src/neat_bot.py lines 896-959: `run_backup`.  `setupOk` is whether
`setup_driver` succeeded, `loginOk` the boolean result of `login`; if
either fails the zeroed statistics are returned.  Otherwise the per-folder
results are folded up. -/
def run_backup (setupOk loginOk : Bool)
    (folderResults : List (Except String (Nat × Nat × List String))) :
    BackupStats :=
  if ¬ setupOk then ⟨0, 0, 0, 0, [], false⟩
  else if ¬ loginOk then ⟨0, 0, 0, 0, [], false⟩
  else runLoop folderResults ⟨folderResults.length, 0, 0, 0, [], false⟩

/-- The per-folder results actually folded in before the first exception
(the whole list when no exception occurs). -/
def okPrefix : List (Except String (Nat × Nat × List String)) →
    List (Nat × Nat × List String)
  | [] => []
  | .error _ :: _ => []
  | .ok a :: t => a :: okPrefix t

theorem runLoop_spec (frs : List (Except String (Nat × Nat × List String))) :
    ∀ st : BackupStats,
      (runLoop frs st).successful_files
        = st.successful_files + ((okPrefix frs).map fun r => r.1).sum
      ∧ (runLoop frs st).failed_files
        = st.failed_files + ((okPrefix frs).map fun r => r.2.1).sum
      ∧ (runLoop frs st).total_files
        = st.total_files + ((okPrefix frs).map fun r => r.1 + r.2.1).sum
      ∧ (runLoop frs st).errors
        = st.errors ++ ((okPrefix frs).map fun r => r.2.2).flatten := by
  induction frs with
  | nil =>
    intro st
    refine ⟨?_, ?_, ?_, ?_⟩ <;> simp [runLoop, okPrefix]
  | cons fr rest ih =>
    intro st
    cases fr with
    | error e =>
      refine ⟨?_, ?_, ?_, ?_⟩ <;> simp [runLoop, okPrefix]
    | ok a =>
      obtain ⟨s, f, es⟩ := a
      obtain ⟨h1, h2, h3, h4⟩ := ih
        { st with
            successful_files := st.successful_files + s
            failed_files := st.failed_files + f
            total_files := st.total_files + (s + f)
            errors := st.errors ++ es }
      refine ⟨?_, ?_, ?_, ?_⟩
      · rw [runLoop, h1]
        simp [okPrefix]
        omega
      · rw [runLoop, h2]
        simp [okPrefix]
        omega
      · rw [runLoop, h3]
        simp [okPrefix]
        omega
      · rw [runLoop, h4]
        simp [okPrefix]

/-- Claim C10: every statistics record returned by `run_backup` satisfies
`total_files = successful_files + failed_files`, where the successful and
failed components are the sums of the corresponding counts of the
per-folder results folded in (all enumerated folders on a clean run, the
processed prefix when an internal exception cuts the loop short, and none
at all when setup or login fails — all counts zero there), and the
top-level error list is the in-order concatenation of those folders' error
lists; every exit path returns a record rather than raising. -/
theorem run_backup_stats_invariant (setupOk loginOk : Bool)
    (frs : List (Except String (Nat × Nat × List String))) :
    (run_backup setupOk loginOk frs).total_files
      = (run_backup setupOk loginOk frs).successful_files
        + (run_backup setupOk loginOk frs).failed_files
    ∧ (run_backup setupOk loginOk frs).successful_files
      = (((if setupOk && loginOk then okPrefix frs else []).map fun r => r.1).sum)
    ∧ (run_backup setupOk loginOk frs).failed_files
      = (((if setupOk && loginOk then okPrefix frs else []).map fun r => r.2.1).sum)
    ∧ (run_backup setupOk loginOk frs).errors
      = (((if setupOk && loginOk then okPrefix frs else []).map fun r => r.2.2).flatten) := by
  cases setupOk with
  | false =>
    refine ⟨?_, ?_, ?_, ?_⟩ <;> simp [run_backup]
  | true =>
    cases loginOk with
    | false =>
      refine ⟨?_, ?_, ?_, ?_⟩ <;> simp [run_backup]
    | true =>
      obtain ⟨h1, h2, h3, h4⟩ := runLoop_spec frs ⟨frs.length, 0, 0, 0, [], false⟩
      have hrb : run_backup true true frs
          = runLoop frs ⟨frs.length, 0, 0, 0, [], false⟩ := by
        rw [run_backup]
        simp
      refine ⟨?_, ?_, ?_, ?_⟩
      · rw [hrb, h1, h2, h3]
        simp only [Nat.zero_add]
        have hsum : ∀ l : List (Nat × Nat × List String),
            ((l.map fun r => r.1 + r.2.1).sum)
              = ((l.map fun r => r.1).sum) + ((l.map fun r => r.2.1).sum) := by
          intro l
          induction l with
          | nil => rfl
          | cons a t iht =>
            simp only [List.map_cons, List.sum_cons, iht]
            omega
        rw [hsum]
      · rw [hrb, h1]
        simp
      · rw [hrb, h2]
        simp
      · rw [hrb, h4]
        simp

/-! ## Configuration validation (src/config.py, `Config.validate`,
lines 85-130) -/

/-- A Python settings value as `validate` inspects it.  Python `bool` is a
subclass of `int`, so booleans pass the `isinstance(value, (int, float))`
check with values 1/0.  Numeric values are modelled by integers (the
claims only involve integral settings; float arithmetic is not exercised
by any claim). -/
inductive SettingVal where
  | vNone : SettingVal
  | vInt : Int → SettingVal
  | vBool : Bool → SettingVal
  | vStr : String → SettingVal
deriving DecidableEq

/-- Python `type(value)` as it prints inside the error f-strings. -/
def pyTypeName : SettingVal → String
  | .vNone => "<class 'NoneType'>"
  | .vInt _ => "<class 'int'>"
  | .vBool _ => "<class 'bool'>"
  | .vStr _ => "<class 'str'>"

/-- `isinstance(value, (int, float))` with the numeric value extracted;
Python booleans count as numeric (True == 1, False == 0). -/
def numValue : SettingVal → Option Int
  | .vInt n => some n
  | .vBool b => some (if b then 1 else 0)
  | _ => none

/-- How the value renders inside an f-string. -/
def renderVal : SettingVal → String
  | .vInt n => toString n
  | .vBool b => if b then "True" else "False"
  | .vStr s => s
  | .vNone => "None"

/-- Python truthiness, for the `if not download_dir` check at line 96. -/
def isFalsy : SettingVal → Bool
  | .vNone => true
  | .vStr s => s = ""
  | .vInt n => n = 0
  | .vBool b => !b

/-- The settings keys `validate` inspects. -/
structure Settings where
  download_dir : SettingVal
  chrome_headless : SettingVal
  wait_timeout : SettingVal
  download_timeout : SettingVal
  delay_between_files : SettingVal
deriving DecidableEq

/-- Outcome of the filesystem probe on `download_dir` (lines 99-108):
the directory is writable, not writable, or the mkdir/probe raised. -/
inductive DirCheck where
  | writable : DirCheck
  | notWritable : DirCheck
  | raised : String → DirCheck
deriving DecidableEq

/-- Lines 94-108: errors contributed by `download_dir`. -/
def dirErrors (v : SettingVal) (dc : DirCheck) : List String :=
  if isFalsy v then ["download_dir is not set"]
  else
    match dc with
    | .writable => []
    | .notWritable => ["download_dir is not writable: " ++ renderVal v]
    | .raised e => ["Invalid download_dir: " ++ e]

/-- Lines 110-113: errors contributed by `chrome_headless`. -/
def headlessErrors (v : SettingVal) : List String :=
  match v with
  | .vNone => []
  | .vBool _ => []
  | other => ["chrome_headless must be boolean, got " ++ pyTypeName other]

/-- Lines 115-128: errors contributed by one numeric setting with its
inclusive range.  `None` is skipped; strings fail the `isinstance` check;
integers and booleans (numeric in Python) are range-checked. -/
def numErrors (key : String) (lo hi : Int) : SettingVal → List String
  | .vNone => []
  | .vStr s => [key ++ " must be numeric, got " ++ pyTypeName (.vStr s)]
  | .vInt n =>
    if n < lo ∨ hi < n then
      [key ++ " must be between " ++ toString lo ++ " and " ++ toString hi
        ++ ", got " ++ renderVal (.vInt n)]
    else []
  | .vBool b =>
    if (if b then (1 : Int) else 0) < lo ∨ hi < (if b then (1 : Int) else 0) then
      [key ++ " must be between " ++ toString lo ++ " and " ++ toString hi
        ++ ", got " ++ renderVal (.vBool b)]
    else []

/-- src/config.py lines 85-130: `Config.validate`, returning
`(len(errors) == 0, errors)` with the errors accumulated in source
order (dict insertion order for the numeric settings). -/
def validate (s : Settings) (dc : DirCheck) : Bool × List String :=
  ((dirErrors s.download_dir dc
      ++ headlessErrors s.chrome_headless
      ++ numErrors "wait_timeout" 1 60 s.wait_timeout
      ++ numErrors "download_timeout" 5 300 s.download_timeout
      ++ numErrors "delay_between_files" 0 10 s.delay_between_files).length == 0,
   dirErrors s.download_dir dc
      ++ headlessErrors s.chrome_headless
      ++ numErrors "wait_timeout" 1 60 s.wait_timeout
      ++ numErrors "download_timeout" 5 300 s.download_timeout
      ++ numErrors "delay_between_files" 0 10 s.delay_between_files)

theorem length_beq_zero_of_mem {l : List String} {x : String} (h : x ∈ l) :
    (l.length == 0) = false := by
  cases l with
  | nil => exact absurd h (List.not_mem_nil x)
  | cons a t => rfl

theorem numErrors_out_of_range (key : String) (lo hi n : Int)
    (h : n < lo ∨ hi < n) :
    numErrors key lo hi (.vInt n)
      = [(key ++ " must be between " ++ toString lo ++ " and " ++ toString hi
          ++ ", got ") ++ toString n] := by
  rw [numErrors, if_pos h]
  rfl

/-- Claim C7: every out-of-range numeric setting — `wait_timeout` outside
1-60, `download_timeout` outside 5-300, `delay_between_files` outside
0-10 — makes `Config.validate` return a pair whose first component is
false and whose error list contains the human-readable message
"{key} must be between {lo} and {hi}, got {value}". -/
theorem validate_rejects_out_of_range (s : Settings) (dc : DirCheck) (n : Int) :
    (s.wait_timeout = .vInt n → n < 1 ∨ 60 < n →
      (validate s dc).1 = false
      ∧ ("wait_timeout must be between 1 and 60, got " ++ toString n)
          ∈ (validate s dc).2)
    ∧ (s.download_timeout = .vInt n → n < 5 ∨ 300 < n →
      (validate s dc).1 = false
      ∧ ("download_timeout must be between 5 and 300, got " ++ toString n)
          ∈ (validate s dc).2)
    ∧ (s.delay_between_files = .vInt n → n < 0 ∨ 10 < n →
      (validate s dc).1 = false
      ∧ ("delay_between_files must be between 0 and 10, got " ++ toString n)
          ∈ (validate s dc).2) := by
  refine ⟨?_, ?_, ?_⟩
  · intro hv hr
    have hlit : ("wait_timeout" ++ " must be between " ++ toString (1 : Int)
        ++ " and " ++ toString (60 : Int) ++ ", got ")
        = "wait_timeout must be between 1 and 60, got " := rfl
    have hmem : ("wait_timeout must be between 1 and 60, got " ++ toString n)
        ∈ (validate s dc).2 := by
      rw [validate]
      simp only
      rw [hv, numErrors_out_of_range "wait_timeout" 1 60 n hr, hlit]
      simp
    exact ⟨length_beq_zero_of_mem hmem, hmem⟩
  · intro hv hr
    have hlit : ("download_timeout" ++ " must be between " ++ toString (5 : Int)
        ++ " and " ++ toString (300 : Int) ++ ", got ")
        = "download_timeout must be between 5 and 300, got " := rfl
    have hmem : ("download_timeout must be between 5 and 300, got " ++ toString n)
        ∈ (validate s dc).2 := by
      rw [validate]
      simp only
      rw [hv, numErrors_out_of_range "download_timeout" 5 300 n hr, hlit]
      simp
    exact ⟨length_beq_zero_of_mem hmem, hmem⟩
  · intro hv hr
    have hlit : ("delay_between_files" ++ " must be between " ++ toString (0 : Int)
        ++ " and " ++ toString (10 : Int) ++ ", got ")
        = "delay_between_files must be between 0 and 10, got " := rfl
    have hmem : ("delay_between_files must be between 0 and 10, got " ++ toString n)
        ∈ (validate s dc).2 := by
      rw [validate]
      simp only
      rw [hv, numErrors_out_of_range "delay_between_files" 0 10 n hr, hlit]
      simp
    exact ⟨length_beq_zero_of_mem hmem, hmem⟩

/-- Witness for claim C7: a settings object whose `wait_timeout` is 120
and whose other settings are valid yields exactly
`(false, ["wait_timeout must be between 1 and 60, got 120"])`. -/
theorem validate_rejects_out_of_range_witness :
    (validate ⟨.vStr "/home/user/NeatBackup", .vBool false, .vInt 120,
        .vInt 30, .vInt 1⟩ .writable).1 = false
    ∧ ("wait_timeout must be between 1 and 60, got " ++ toString (120 : Int))
        ∈ (validate ⟨.vStr "/home/user/NeatBackup", .vBool false, .vInt 120,
            .vInt 30, .vInt 1⟩ .writable).2
    ∧ validate ⟨.vStr "/home/user/NeatBackup", .vBool false, .vInt 120,
        .vInt 30, .vInt 1⟩ .writable
      = (false, ["wait_timeout must be between 1 and 60, got 120"]) := by
  have h := (validate_rejects_out_of_range
    ⟨.vStr "/home/user/NeatBackup", .vBool false, .vInt 120, .vInt 30, .vInt 1⟩
    .writable 120).1 rfl (by decide)
  exact ⟨h.1, h.2, rfl⟩

/-! ## Login (src/neat_bot.py, `login`, lines 63-173)

`login` is driven entirely by what the browser reports at each observation
point; one call is modelled by an oracle record carrying those
observations.  Selenium's `wait.until(pred)` returns normally only when
the predicate became true and raises a timeout otherwise, so its outcome
is an `Option` of a url on which the predicate is then checked. -/

/-- The browser observations one `login` call can make. -/
structure LoginEnv where
  urlAfterNav : String
  findUsername : Except String Unit
  findPassword : Except String Unit
  captchaDetected : Bool
  captchaPolls : List (String × Bool)
  urlPreSubmit : String
  submitClick : Except String Unit
  submitWaitUrl : Option String

/-- The CAPTCHA-resolution polling loop (lines 126-158): each poll sees
the current url and whether a CAPTCHA indicator is still displayed; the
loop succeeds on a url containing "files/folders" or on indicator
disappearance, and the 60-second budget running out (list exhausted) is a
timeout. -/
def captchaLoop : List (String × Bool) → Bool
  | [] => false
  | (u, present) :: rest =>
    if containsSub u "files/folders" then true
    else if !present then true
    else captchaLoop rest

/-- The `try` body of `login` (lines 74-169).  The result pairs the
returned boolean with the browser url at the moment of the return. -/
def loginBody (env : LoginEnv) : Except String (Bool × String) :=
  if containsSub env.urlAfterNav "files/folders" then
    .ok (true, env.urlAfterNav)
  else
    match env.findUsername with
    | .error e => .error e
    | .ok _ =>
      match env.findPassword with
      | .error e => .error e
      | .ok _ =>
        if env.captchaDetected && !captchaLoop env.captchaPolls then
          .ok (false, env.urlPreSubmit)
        else
          if containsSub env.urlPreSubmit "files/folders" then
            .ok (true, env.urlPreSubmit)
          else
            match env.submitClick with
            | .error e => .error e
            | .ok _ =>
              match env.submitWaitUrl with
              | none => .error "TimeoutException"
              | some u =>
                if containsSub u "files/folders" then .ok (true, u)
                else .error "TimeoutException"

/-- src/neat_bot.py lines 63-173: `login`, with the surrounding
`except Exception` handler (lines 171-173) that logs the cause and
returns False. -/
def login (env : LoginEnv) : Bool × String :=
  match loginBody env with
  | .ok r => r
  | .error _ => (false, "")

theorem loginBody_ok_true (env : LoginEnv) (r : Bool × String)
    (hb : loginBody env = .ok r) (ht : r.1 = true) :
    containsSub r.2 "files/folders" = true := by
  rw [loginBody] at hb
  split at hb
  next h1 =>
    cases hb
    exact h1
  next h1 =>
    split at hb
    next => cases hb
    next =>
      split at hb
      next => cases hb
      next =>
        split at hb
        next h2 =>
          cases hb
          exact Bool.noConfusion ht
        next h2 =>
          split at hb
          next h3 =>
            cases hb
            exact h3
          next h3 =>
            split at hb
            next => cases hb
            next =>
              split at hb
              next => cases hb
              next u2 =>
                split at hb
                next h4 =>
                  cases hb
                  exact h4
                next h4 => cases hb

/-- Claim C8: `login` never propagates an exception to its caller — any
error raised inside the body is caught and converted into a False return
— and it returns True only when the browser url at the moment of return
contains "files/folders" (which covers the already-authenticated entry
path, where it returns True immediately). -/
theorem login_no_raise_auth_url (env : LoginEnv) :
    ((login env).1 = true → containsSub (login env).2 "files/folders" = true)
    ∧ (∀ e, loginBody env = .error e → (login env).1 = false) := by
  constructor
  · intro ht
    cases hb : loginBody env with
    | error e =>
      rw [login, hb] at ht
      exact Bool.noConfusion ht
    | ok r =>
      rw [login, hb] at ht ⊢
      exact loginBody_ok_true env r hb ht
  · intro e he
    rw [login, he]

/-- Witness for claim C8: at an already-authenticated entry (the url after
navigation contains "files/folders") `login` returns True with an
authenticated url; and at an entry where the username field lookup raises,
`login` returns False instead of propagating. -/
theorem login_no_raise_auth_url_witness :
    containsSub (login ⟨"https://app.neat.com/files/folders", .ok (), .ok (),
        false, [], "", .ok (), none⟩).2 "files/folders" = true
    ∧ (login ⟨"https://app.neat.com/signin", .error "no such element", .ok (),
        false, [], "", .ok (), none⟩).1 = false := by
  refine ⟨?_, ?_⟩
  · exact (login_no_raise_auth_url ⟨"https://app.neat.com/files/folders",
      .ok (), .ok (), false, [], "", .ok (), none⟩).1 (by decide)
  · exact (login_no_raise_auth_url ⟨"https://app.neat.com/signin",
      .error "no such element", .ok (), false, [], "", .ok (), none⟩).2
      "no such element" rfl

end NeatBackup
